import Mathlib

/-!
Verification of the streaming RAG chat front-end (`app.py`).

The development shallowly embeds the two Python functions at the heart of the
program — `stream_chat` (the SSE streaming-turn processor) and `respond` (the
Gradio event handler) — together with the helpers `get_models` and
`_label_to_model`.  Network effects are made explicit: the outcome of opening
the HTTP request is a parameter (`OpenResult` / `HttpGetOutcome`), and the body
of a streaming response is the list of decoded text lines the Python loop
iterates over.  Python exceptions that escape a function are modelled with
`Except` / an error component rather than being dropped.
-/

namespace RagUi

/-- JSON values as produced by Python's `json.loads`: `null`, booleans,
numbers (integers suffice for this protocol), strings, arrays and objects
(field lists in insertion order; lookups take the last binding, as a Python
`dict` built from duplicate keys would). -/
inductive Json where
  | null : Json
  | bool (b : Bool) : Json
  | num (n : Int) : Json
  | str (s : String) : Json
  | arr (elems : List Json) : Json
  | obj (fields : List (String × Json)) : Json
deriving Repr

/-- Lookup modelling `dict.get key` on an object's field list: the value of the last binding
of `key`, or `none` when the key is absent (Python dicts keep one binding per
key, last writer wins). -/
def jsonLookup (fields : List (String × Json)) (key : String) : Option Json :=
  fields.foldl (fun acc kv => if kv.1 = key then some kv.2 else acc) none

/-- Characters Python's `str.strip` and the JSON decoder treat as whitespace. -/
def isPySpace (c : Char) : Bool :=
  c = ' ' || c = '\t' || c = '\n' || c = '\r' || c = '\x0b' || c = '\x0c'

/-- Drop leading whitespace (used by the JSON decoder between tokens). -/
def skipWs : List Char → List Char
  | [] => []
  | c :: cs => if isPySpace c then skipWs cs else c :: cs

/-- Decode the body of a JSON string literal (opening quote already consumed);
returns the decoded characters and the input after the closing quote.  The
escapes of RFC 8259 other than `\uXXXX` are handled; anything else fails,
as `json.loads` would. -/
def parseStringBody : List Char → Option (List Char × List Char)
  | [] => none
  | '"' :: cs => some ([], cs)
  | '\\' :: e :: cs =>
    let esc : Option Char :=
      match e with
      | 'n' => some '\n'
      | 't' => some '\t'
      | 'r' => some '\r'
      | 'b' => some '\x08'
      | 'f' => some '\x0c'
      | '"' => some '"'
      | '\\' => some '\\'
      | '/' => some '/'
      | _ => none
    match esc, parseStringBody cs with
    | some c, some r => some (c :: r.1, r.2)
    | _, _ => none
  | '\\' :: [] => none
  | c :: cs =>
    match parseStringBody cs with
    | some r => some (c :: r.1, r.2)
    | none => none

/-- Decode a run of decimal digits into a natural number; fails when the input
does not start with a digit. -/
def parseDigits (cs : List Char) : Option (Nat × List Char) :=
  let ds := cs.takeWhile Char.isDigit
  if ds.isEmpty then none
  else some (ds.foldl (fun acc c => acc * 10 + (c.toNat - 48)) 0, cs.dropWhile Char.isDigit)

mutual

/-- Decode one JSON value (fuelled recursion; `loads` supplies ample fuel). -/
def parseValue : Nat → List Char → Option (Json × List Char)
  | 0, _ => none
  | fuel + 1, cs =>
    match skipWs cs with
    | 'n' :: 'u' :: 'l' :: 'l' :: rest => some (.null, rest)
    | 't' :: 'r' :: 'u' :: 'e' :: rest => some (.bool true, rest)
    | 'f' :: 'a' :: 'l' :: 's' :: 'e' :: rest => some (.bool false, rest)
    | '"' :: rest => (parseStringBody rest).map fun r => (.str (String.mk r.1), r.2)
    | '{' :: rest =>
      (match skipWs rest with
       | '}' :: r2 => some (.obj [], r2)
       | r2 => (parseMembers fuel r2).map fun r => (.obj r.1, r.2))
    | '[' :: rest =>
      (match skipWs rest with
       | ']' :: r2 => some (.arr [], r2)
       | r2 => (parseElems fuel r2).map fun r => (.arr r.1, r.2))
    | '-' :: rest => (parseDigits rest).map fun r => (.num (-(r.1 : Int)), r.2)
    | c :: rest =>
      if c.isDigit then (parseDigits (c :: rest)).map fun r => (.num (r.1 : Int), r.2)
      else none
    | [] => none

/-- Decode the members of a JSON object after `{` (at least one member). -/
def parseMembers : Nat → List Char → Option (List (String × Json) × List Char)
  | 0, _ => none
  | fuel + 1, cs =>
    match skipWs cs with
    | '"' :: rest =>
      match parseStringBody rest with
      | none => none
      | some (key, r1) =>
        match skipWs r1 with
        | ':' :: r2 =>
          match parseValue fuel r2 with
          | none => none
          | some (v, r3) =>
            match skipWs r3 with
            | ',' :: r4 =>
              (match parseMembers fuel r4 with
               | some (ms, r5) => some ((String.mk key, v) :: ms, r5)
               | none => none)
            | '}' :: r4 => some ([(String.mk key, v)], r4)
            | _ => none
        | _ => none
    | _ => none

/-- Decode the elements of a JSON array after `[` (at least one element). -/
def parseElems : Nat → List Char → Option (List Json × List Char)
  | 0, _ => none
  | fuel + 1, cs =>
    match parseValue fuel cs with
    | none => none
    | some (v, r1) =>
      match skipWs r1 with
      | ',' :: r2 =>
        (match parseElems fuel r2 with
         | some (xs, r3) => some (v :: xs, r3)
         | none => none)
      | ']' :: r2 => some ([v], r2)
      | _ => none

end

/-- Modelled from the spec: the external decoder `json.loads` used at
`app.py:117` and `app.py:45` (the Python standard library is not part of this
repository).  Decodes the JSON subset the backend protocol uses (§6 of the
spec: objects, arrays, strings, literals, integers) and fails — `none`, the
counterpart of `json.JSONDecodeError` — on malformed input or trailing
garbage. -/
def loads (s : String) : Option Json :=
  match parseValue (s.length + 1) s.toList with
  | some (v, rest) => if (skipWs rest).isEmpty then some v else none
  | none => none

/-- Python exceptions that can escape the modelled functions. -/
inductive PyErr where
  | connectError : PyErr
  | attributeError : PyErr
  | typeError : PyErr
  | keyError : PyErr
deriving DecidableEq, Repr

/-- Outcome of `httpx.stream("POST", ...)` at `app.py:106`: either the
transport fails (`httpx` raises, e.g. an unreachable backend), or a response
arrives with some HTTP status and a body that `iter_lines` splits into decoded
text lines.  `stream_chat` contains no `raise_for_status` call, so the status
is data the code may or may not inspect. -/
inductive OpenResult where
  | transportError : OpenResult
  | ok (status : Nat) (lines : List String) : OpenResult

/-- Outcome of `httpx.get(f"{API_URL}/models", ...)` at `app.py:43`. -/
inductive HttpGetOutcome where
  | netError : HttpGetOutcome
  | response (status : Nat) (bodyText : String) : HttpGetOutcome

/-- Python `str.strip()` (used on the SSE payload at `app.py:114`). -/
def pyStrip (s : String) : String :=
  String.mk (((s.toList.dropWhile isPySpace).reverse.dropWhile isPySpace).reverse)

/-- Predicate for `raw.startswith(b"data: ")` at `app.py:112`. -/
def isDataLine (raw : String) : Bool :=
  "data: ".toList.isPrefixOf raw.toList

/-- The slice `raw[len(b"data: "):]` at `app.py:113` (the decoded text after the
6-character SSE prefix). -/
def dataPayload (raw : String) : String :=
  String.mk (raw.toList.drop 6)

/-- The read loop of `stream_chat` (`app.py:109-122`) over the decoded body
lines.  Returns the tokens yielded in order, paired with the exception (if
any) that escapes the generator: `chunk.get` on a non-dict JSON value raises
`AttributeError`, which aborts the stream after the tokens yielded so far.
Empty lines, lines without the `data: ` prefix and malformed JSON are skipped;
a payload that strips to `[DONE]` breaks out of the loop. -/
def streamBody : List String → List Json × Option PyErr
  | [] => ([], none)
  | raw :: rest =>
    if raw = "" then streamBody rest
    else if isDataLine raw then
      if pyStrip (dataPayload raw) = "[DONE]" then ([], none)
      else
        match loads (dataPayload raw) with
        | none => streamBody rest
        | some (Json.obj fields) =>
          (((jsonLookup fields "content").getD (Json.str "")) :: (streamBody rest).1,
            (streamBody rest).2)
        | some _ => ([], some PyErr.attributeError)
    else streamBody rest

/-- The characters of `s` after its first `':'` (Python `s.split(":", 1)[1]`,
defined when `':' ∈ s`). -/
def afterFirstColon (s : String) : String :=
  String.mk ((s.toList.dropWhile (fun c => c ≠ ':')).drop 1)

/-- Embedding of `_label_to_model` (`app.py:65-69`): strip the `model_type:` prefix back to
the raw model name; a falsy choice (`None` or `""`) maps to `None`. -/
def label_to_model : Option String → Option String
  | none => none
  | some choice =>
    if choice = "" then none
    else if choice.toList.contains ':' then some (afterFirstColon choice)
    else some choice

/-- The loop at `app.py:91-95`: flatten (user, assistant) pairs, keeping only
truthy (non-empty) entries, user before assistant. -/
def flattenPairs : List (String × String) → List String
  | [] => []
  | (u, a) :: rest =>
    (if u = "" then [] else [u]) ++ (if a = "" then [] else [a]) ++ flattenPairs rest

/-- The list `history_flat` as built at `app.py:89-95`: the flattening of
`chat_history[:-1]` (the unfinished last turn is excluded). -/
def historyFlat (chat_history : List (String × String)) : List String :=
  flattenPairs chat_history.dropLast

/-- The JSON request body built at `app.py:97-104`.  `model = none` means the
`"model"` key is absent from the dict. -/
structure Payload where
  question : String
  history : List String
  model : Option String
deriving Repr

/-- Lines `app.py:97-104`: the body always carries `question` and `history`;
the `model` key is added only when `_label_to_model(model_choice)` is truthy
(`if model:`). -/
def buildPayload (question : String) (chat_history : List (String × String))
    (model_choice : Option String) : Payload :=
  { question := question
    history := historyFlat chat_history
    model :=
      match label_to_model model_choice with
      | some m => if m = "" then none else some m
      | none => none }

/-- Embedding of `stream_chat` (`app.py:77-122`).  Returns the request payload it sends,
the tokens it yields, and the exception (if any) that escapes the generator.
When the transport fails, `httpx.stream` raises before any token is yielded;
the code never inspects the response status, so a response's lines are
processed the same way whatever its status. -/
def stream_chat (question : String) (chat_history : List (String × String))
    (model_choice : Option String) (openRes : OpenResult) :
    Payload × List Json × Option PyErr :=
  let payload := buildPayload question chat_history model_choice
  match openRes with
  | OpenResult.transportError => (payload, [], some PyErr.connectError)
  | OpenResult.ok _status lines => (payload, streamBody lines)

/-- The loop of `respond` (`app.py:136-140`): for each yielded token, append
it to `assistant_buffer` (a `TypeError` escapes when the token is not a
string) and yield the transcript with the last turn's assistant slot replaced
by the buffer. -/
def respondLoop (message : String) (ch0 : List (String × String)) (buf : String) :
    List Json → List (List (String × String)) × Option PyErr
  | [] => ([], none)
  | Json.str s :: rest =>
    ((ch0 ++ [(message, buf ++ s)]) :: (respondLoop message ch0 (buf ++ s) rest).1,
      (respondLoop message ch0 (buf ++ s) rest).2)
  | _ :: _ => ([], some PyErr.typeError)

/-- Embedding of `respond` (`app.py:130-140`): append the placeholder turn, yield the
transcript once immediately, then stream tokens through `stream_chat` and
yield an updated transcript per token.  Returns the yielded transcripts in
order plus the exception (if any) that escapes: a `TypeError` from the `+=`
takes effect before any later error of the stream. -/
def respond (message : String) (chat_history : List (String × String))
    (model_choice : Option String) (openRes : OpenResult) :
    List (List (String × String)) × Option PyErr :=
  let ch := chat_history ++ [(message, "")]
  let r := stream_chat message ch model_choice openRes
  let l := respondLoop message chat_history "" r.2.1
  (ch :: l.1,
    match l.2 with
    | some e => some e
    | none => r.2.2)

/-- The grouping loop at `app.py:51-53`:
`grouped.setdefault(m["model_type"], []).append(m["name"])` per descriptor,
keeping the insertion order of both groups and names.  Descriptors that are
not objects with string `model_type`/`name` fields make the (un-wrapped) loop
raise; the distinction between `KeyError` and `TypeError` is collapsed to the
fact that an exception escapes. -/
def addGroup (grouped : List (String × List String)) (t n : String) :
    List (String × List String) :=
  if grouped.any (fun p => p.1 = t) then
    grouped.map (fun p => if p.1 = t then (p.1, p.2 ++ [n]) else p)
  else grouped ++ [(t, [n])]

/-- Fold of `addGroup` over the model descriptors (`app.py:52-53`). -/
def groupModels (acc : List (String × List String)) :
    List Json → Except PyErr (List (String × List String))
  | [] => Except.ok acc
  | Json.obj fields :: rest =>
    (match jsonLookup fields "model_type", jsonLookup fields "name" with
     | some (Json.str t), some (Json.str n) => groupModels (addGroup acc t n) rest
     | _, _ => Except.error PyErr.keyError)
  | _ :: _ => Except.error PyErr.typeError

/-- Embedding of `get_models` (`app.py:33-59`).  The `try` block covers the GET request,
`raise_for_status()` (httpx raises on any non-2xx status) and `resp.json()`;
any of those failing returns `([], None, {})`.  The grouping and
default-choice code at `app.py:50-58` runs outside the `try`, so a body that
decodes to JSON of an unexpected shape raises to the caller (`Except.error`). -/
def get_models (outcome : HttpGetOutcome) :
    Except PyErr (List String × Option String × List (String × List String)) :=
  match outcome with
  | HttpGetOutcome.netError => Except.ok ([], none, [])
  | HttpGetOutcome.response status bodyText =>
    if 200 ≤ status ∧ status ≤ 299 then
      match loads bodyText with
      | none => Except.ok ([], none, [])
      | some (Json.obj fields) =>
        (match (jsonLookup fields "models").getD (Json.arr []) with
         | Json.arr ms =>
           (match groupModels [] ms with
            | Except.error e => Except.error e
            | Except.ok grouped =>
              let choices := grouped.flatMap (fun p => p.2.map (fun n => p.1 ++ ":" ++ n))
              let default_choice :=
                match jsonLookup fields "default_model" with
                | some (Json.str d) => choices.find? (fun c => afterFirstColon c = d)
                | _ => none
              Except.ok (choices, default_choice, grouped))
         | _ => Except.error PyErr.typeError)
      | some _ => Except.error PyErr.attributeError
    else Except.ok ([], none, [])

/-! ### Specification-side helpers

These definitions state properties; they are not part of the embedding. -/

/-- Concatenation of a list of fragments in order. -/
def concatList : List String → String
  | [] => ""
  | s :: rest => s ++ concatList rest

/-- The running accumulations of `frags` starting from `buf`: element `i` is
`buf` followed by the first `i+1` fragments. -/
def accumFrom (buf : String) : List String → List String
  | [] => []
  | s :: rest => (buf ++ s) :: accumFrom (buf ++ s) rest

/-- View a token list as strings (string tokens unchanged, anything else
rendered `""`); used to compare produced sequences with the spec's expected
string sequences. -/
def tokensAsStrings (l : List Json) : List String :=
  l.map fun t =>
    match t with
    | Json.str s => s
    | _ => ""

/-- Predicate `ValidFrames lines frags`: `lines` is a sequence of well-formed SSE data
frames whose JSON payloads are objects carrying the `content` fragments
`frags` in order, none of them the terminal marker. -/
inductive ValidFrames : List String → List String → Prop where
  | nil : ValidFrames [] []
  | cons (d frag : String) (fields : List (String × Json)) (lines frags : List String) :
      loads d = some (Json.obj fields) →
      jsonLookup fields "content" = some (Json.str frag) →
      pyStrip d ≠ "[DONE]" →
      ValidFrames lines frags →
      ValidFrames (("data: " ++ d) :: lines) (frag :: frags)

/-! ### Plumbing lemmas about SSE lines -/

lemma isPrefixOf_append_self (l t : List Char) : l.isPrefixOf (l ++ t) = true := by
  induction l with
  | nil => simp [List.isPrefixOf]
  | cons c cs ih => simp [List.isPrefixOf, ih]

lemma dataLine_ne_empty (d : String) : ("data: " ++ d) ≠ "" := by
  intro h
  have h2 := congrArg String.data h
  rw [String.data_append] at h2
  have h3 : ('d' :: 'a' :: 't' :: 'a' :: ':' :: ' ' :: d.data : List Char) = [] := h2
  exact absurd h3 (by simp)

lemma isDataLine_append (d : String) : isDataLine ("data: " ++ d) = true := by
  show List.isPrefixOf "data: ".toList ("data: " ++ d).toList = true
  have h : ("data: " ++ d).toList = "data: ".toList ++ d.toList := String.data_append _ _
  rw [h]
  exact isPrefixOf_append_self _ _

lemma dataPayload_append (d : String) : dataPayload ("data: " ++ d) = d := by
  show String.mk (("data: " ++ d).toList.drop 6) = d
  have h : ("data: " ++ d).toList = 'd' :: 'a' :: 't' :: 'a' :: ':' :: ' ' :: d.data := by
    have := String.data_append "data: " d
    exact this
  rw [h]
  rfl

lemma streamBody_done (d : String) (rest : List String) (h : pyStrip d = "[DONE]") :
    streamBody (("data: " ++ d) :: rest) = ([], none) := by
  simp only [streamBody, if_neg (dataLine_ne_empty d), isDataLine_append, if_true,
    dataPayload_append, h, if_pos rfl]

lemma streamBody_skip (d : String) (rest : List String) (h1 : pyStrip d ≠ "[DONE]")
    (h2 : loads d = none) : streamBody (("data: " ++ d) :: rest) = streamBody rest := by
  simp only [streamBody, if_neg (dataLine_ne_empty d), isDataLine_append, if_true,
    dataPayload_append, if_neg h1, h2]

lemma streamBody_token (d : String) (fields : List (String × Json)) (rest : List String)
    (h1 : pyStrip d ≠ "[DONE]") (h2 : loads d = some (Json.obj fields)) :
    streamBody (("data: " ++ d) :: rest) =
      (((jsonLookup fields "content").getD (Json.str "")) :: (streamBody rest).1,
        (streamBody rest).2) := by
  simp only [streamBody, if_neg (dataLine_ne_empty d), isDataLine_append, if_true,
    dataPayload_append, if_neg h1, h2]

lemma streamBody_validFrames {lines frags : List String} (hv : ValidFrames lines frags)
    (tail : List String) :
    streamBody (lines ++ tail) =
      ((frags.map Json.str) ++ (streamBody tail).1, (streamBody tail).2) := by
  induction hv with
  | nil => simp
  | cons d frag fields lines frags hl hk hd htail ih =>
    rw [List.cons_append, streamBody_token d fields _ hd hl, ih]
    simp [hk]

/-! ### Lemmas about `respond` -/

lemma respondLoop_str (m : String) (ch0 : List (String × String)) (buf : String)
    (frags : List String) :
    respondLoop m ch0 buf (frags.map Json.str) =
      ((accumFrom buf frags).map (fun b => ch0 ++ [(m, b)]), none) := by
  induction frags generalizing buf with
  | nil => rfl
  | cons s rest ih => simp [respondLoop, accumFrom, ih]

lemma respond_ok_yields (m : String) (ch0 : List (String × String)) (mc : Option String)
    (status : Nat) (L : List String) (frags : List String)
    (hsb : streamBody L = (frags.map Json.str, none)) :
    respond m ch0 mc (OpenResult.ok status L) =
      ((ch0 ++ [(m, "")]) :: (accumFrom "" frags).map (fun b => ch0 ++ [(m, b)]), none) := by
  simp only [respond, stream_chat, hsb, respondLoop_str]

lemma accumFrom_getLast (rest : List String) : ∀ (buf s : String),
    (accumFrom buf (s :: rest)).getLast? = some (buf ++ concatList (s :: rest)) := by
  induction rest with
  | nil => intro buf s; simp [accumFrom, concatList, String.append_empty]
  | cons t r ih =>
    intro buf s
    have step : accumFrom buf (s :: t :: r) = (buf ++ s) :: accumFrom (buf ++ s) (t :: r) := rfl
    have step2 : accumFrom (buf ++ s) (t :: r)
        = ((buf ++ s) ++ t) :: accumFrom ((buf ++ s) ++ t) r := rfl
    rw [step, step2, List.getLast?_cons_cons, ← step2, ih (buf ++ s) t]
    rw [show concatList (s :: t :: r) = s ++ concatList (t :: r) from rfl, ← String.append_assoc]

lemma yields_getLast (m : String) (ch0 : List (String × String)) (frags : List String) :
    (((ch0 ++ [(m, "")]) :: (accumFrom "" frags).map (fun b => ch0 ++ [(m, b)]))).getLast?
      = some (ch0 ++ [(m, concatList frags)]) := by
  cases frags with
  | nil => rfl
  | cons s rest =>
    have h1 : (accumFrom "" (s :: rest)).map (fun b => ch0 ++ [(m, b)])
        = (ch0 ++ [(m, "" ++ s)]) :: (accumFrom ("" ++ s) rest).map (fun b => ch0 ++ [(m, b)]) :=
      rfl
    rw [h1, List.getLast?_cons_cons, ← h1, List.getLast?_map,
      accumFrom_getLast rest "" s, String.empty_append]
    rfl

lemma tokensAsStrings_map_str (frags : List String) :
    tokensAsStrings (frags.map Json.str) = frags := by
  induction frags with
  | nil => rfl
  | cons s rest ih =>
    simp only [tokensAsStrings, List.map_cons, List.map_map] at ih ⊢
    rw [ih]

lemma stream_chat_payload (q : String) (ch : List (String × String)) (mc : Option String)
    (res : OpenResult) : (stream_chat q ch mc res).1 = buildPayload q ch mc := by
  cases res <;> rfl

lemma respondLoop_shape (m : String) (ch0 : List (String × String)) (tokens : List Json) :
    ∀ (buf : String) (t : List (String × String)),
      t ∈ (respondLoop m ch0 buf tokens).1 → ∃ a, t = ch0 ++ [(m, a)] := by
  induction tokens with
  | nil => intro buf t ht; simp [respondLoop] at ht
  | cons tok rest ih =>
    intro buf t ht
    cases tok with
    | str s =>
      simp only [respondLoop, List.mem_cons] at ht
      rcases ht with rfl | ht
      · exact ⟨buf ++ s, rfl⟩
      · exact ih (buf ++ s) t ht
    | null => simp [respondLoop] at ht
    | bool b => simp [respondLoop] at ht
    | num n => simp [respondLoop] at ht
    | arr xs => simp [respondLoop] at ht
    | obj fs => simp [respondLoop] at ht

/-! ### Claim theorems -/

/-- C1: for every sequence of well-formed SSE data frames carrying non-empty
`content` fragments followed by the `[DONE]` marker, the final accumulated
assistant answer produced by the streaming turn — the last assistant text
yielded by `respond`, built from `stream_chat`'s tokens — equals the
concatenation of all the fragments in the order they were received. -/
theorem respond_final_is_concat (message : String) (ch0 : List (String × String))
    (mc : Option String) (status : Nat) (lines frags : List String)
    (hv : ValidFrames lines frags) (_hne : ∀ f ∈ frags, f ≠ "") :
    ((respond message ch0 mc (OpenResult.ok status (lines ++ ["data: [DONE]"]))).1).getLast?
      = some (ch0 ++ [(message, concatList frags)]) := by
  have hsb : streamBody (lines ++ ["data: [DONE]"]) = (frags.map Json.str, none) := by
    rw [streamBody_validFrames hv, show streamBody ["data: [DONE]"] = ([], none) from rfl]
    simp
  rw [respond_ok_yields message ch0 mc status _ frags hsb]
  exact yields_getLast message ch0 frags

/-- Witness for C1: the two-fragment scenario yields the final answer
`"Hello"`. -/
theorem respond_final_is_concat_witness :
    ((respond "q" [] none (OpenResult.ok 200
        (["data: " ++ "\x7b\"content\":\"Hel\"\x7d", "data: " ++ "\x7b\"content\":\"lo\"\x7d"]
          ++ ["data: [DONE]"]))).1).getLast?
      = some [("q", "Hello")] := by
  have hv : ValidFrames
      ["data: " ++ "\x7b\"content\":\"Hel\"\x7d", "data: " ++ "\x7b\"content\":\"lo\"\x7d"]
      ["Hel", "lo"] :=
    ValidFrames.cons _ _ [("content", Json.str "Hel")] _ _ rfl rfl (by decide)
      (ValidFrames.cons _ _ [("content", Json.str "lo")] _ _ rfl rfl (by decide)
        ValidFrames.nil)
  exact (respond_final_is_concat "q" [] none 200 _ _ hv (by decide)).trans (by rfl)

/-- C2 counterexample: on the frames carrying `Hel`, `lo` and then the
terminal marker, `stream_chat` yields the raw deltas `["Hel", "lo"]`, not the
accumulated sequence `["Hel", "Hello"]` the claim states. -/
theorem stream_chat_yields_deltas_cex :
    tokensAsStrings (stream_chat "q" [("q", "")] none (OpenResult.ok 200
        ["data: \x7b\"content\":\"Hel\"\x7d", "data: \x7b\"content\":\"lo\"\x7d",
          "data: [DONE]"])).2.1
      = ["Hel", "lo"]
    ∧ (["Hel", "lo"] : List String) ≠ ["Hel", "Hello"] :=
  ⟨rfl, by decide⟩

/-- C2 amended: `stream_chat` yields the raw deltas in order; the
accumulated-so-far sequence is produced by `respond`, whose yields after the
initial placeholder carry the successive accumulations of the fragments (for
the scenario's fragments `Hel`, `lo`: first `"Hel"`, then `"Hello"`). -/
theorem respond_accumulates (m : String) (ch0 : List (String × String)) (mc : Option String)
    (status : Nat) (lines frags : List String) (hv : ValidFrames lines frags) :
    respond m ch0 mc (OpenResult.ok status (lines ++ ["data: [DONE]"]))
      = ((ch0 ++ [(m, "")]) :: (accumFrom "" frags).map (fun b => ch0 ++ [(m, b)]), none)
    ∧ tokensAsStrings (stream_chat m (ch0 ++ [(m, "")]) mc
        (OpenResult.ok status (lines ++ ["data: [DONE]"]))).2.1 = frags := by
  have hsb : streamBody (lines ++ ["data: [DONE]"]) = (frags.map Json.str, none) := by
    rw [streamBody_validFrames hv, show streamBody ["data: [DONE]"] = ([], none) from rfl]
    simp
  refine ⟨respond_ok_yields m ch0 mc status _ frags hsb, ?_⟩
  show tokensAsStrings (streamBody (lines ++ ["data: [DONE]"])).1 = frags
  rw [hsb]
  exact tokensAsStrings_map_str frags

/-- Witness for C2 (amended): the produced transcript sequence for the
`Hel`/`lo` scenario is placeholder, `"Hel"`, `"Hello"`. -/
theorem respond_accumulates_witness :
    (respond "q" [] none (OpenResult.ok 200
        (["data: " ++ "\x7b\"content\":\"Hel\"\x7d", "data: " ++ "\x7b\"content\":\"lo\"\x7d"]
          ++ ["data: [DONE]"]))).1
      = [[("q", "")], [("q", "Hel")], [("q", "Hello")]] := by
  have hv : ValidFrames
      ["data: " ++ "\x7b\"content\":\"Hel\"\x7d", "data: " ++ "\x7b\"content\":\"lo\"\x7d"]
      ["Hel", "lo"] :=
    ValidFrames.cons _ _ [("content", Json.str "Hel")] _ _ rfl rfl (by decide)
      (ValidFrames.cons _ _ [("content", Json.str "lo")] _ _ rfl rfl (by decide)
        ValidFrames.nil)
  exact (congrArg Prod.fst (respond_accumulates "q" [] none 200 _ _ hv).1).trans (by rfl)

/-- C3: a malformed data frame (payload after the SSE prefix not valid JSON)
interleaved between valid frames is skipped silently: the final accumulated
answer equals the concatenation of only the valid fragments in their original
order, and the malformed frame does not abort the stream. -/
theorem malformed_frame_skipped (m : String) (ch0 : List (String × String))
    (mc : Option String) (status : Nat) (lines1 lines2 frags1 frags2 : List String)
    (d : String) (h1 : ValidFrames lines1 frags1) (h2 : ValidFrames lines2 frags2)
    (hbad : loads d = none) (hnd : pyStrip d ≠ "[DONE]") :
    ((respond m ch0 mc (OpenResult.ok status
        (lines1 ++ ("data: " ++ d) :: (lines2 ++ ["data: [DONE]"])))).1).getLast?
      = some (ch0 ++ [(m, concatList (frags1 ++ frags2))]) := by
  have hsb : streamBody (lines1 ++ ("data: " ++ d) :: (lines2 ++ ["data: [DONE]"]))
      = ((frags1 ++ frags2).map Json.str, none) := by
    rw [streamBody_validFrames h1, streamBody_skip d _ hnd hbad,
      streamBody_validFrames h2, show streamBody ["data: [DONE]"] = ([], none) from rfl]
    simp
  rw [respond_ok_yields m ch0 mc status _ _ hsb]
  exact yields_getLast m ch0 (frags1 ++ frags2)

/-- Witness for C3: valid `A`, malformed payload, valid `B` produce the final
answer `"AB"`. -/
theorem malformed_frame_skipped_witness :
    ((respond "q" [] none (OpenResult.ok 200
        (["data: " ++ "\x7b\"content\":\"A\"\x7d"] ++ ("data: " ++ "\x7boops")
          :: (["data: " ++ "\x7b\"content\":\"B\"\x7d"] ++ ["data: [DONE]"])))).1).getLast?
      = some [("q", "AB")] := by
  have h1 : ValidFrames ["data: " ++ "\x7b\"content\":\"A\"\x7d"] ["A"] :=
    ValidFrames.cons _ _ [("content", Json.str "A")] _ _ rfl rfl (by decide) ValidFrames.nil
  have h2 : ValidFrames ["data: " ++ "\x7b\"content\":\"B\"\x7d"] ["B"] :=
    ValidFrames.cons _ _ [("content", Json.str "B")] _ _ rfl rfl (by decide) ValidFrames.nil
  exact (malformed_frame_skipped "q" [] none 200 _ _ _ _ "\x7boops" h1 h2 rfl
    (by decide)).trans (by rfl)

/-- C4 counterexample: on a stream that ends with no content ever received,
`stream_chat` produces zero output elements (not exactly one), and the single
transcript `respond` yields leaves the assistant text empty — there is no
fallback notice, and the caller renders a blank assistant turn. -/
theorem empty_stream_no_fallback_cex :
    (stream_chat "q" [("q", "")] none (OpenResult.ok 200 ["data: [DONE]"])).2.1 = []
    ∧ (respond "q" [] none (OpenResult.ok 200 ["data: [DONE]"])).1 = [[("q", "")]] :=
  ⟨rfl, rfl⟩

/-- C4 amended: when the stream produces no token before ending, `respond`
yields exactly one transcript, whose current assistant text is the empty
string; the code contains no fallback notice. -/
theorem empty_stream_blank_turn (m : String) (ch0 : List (String × String))
    (mc : Option String) (status : Nat) (lines : List String)
    (h : streamBody lines = ([], none)) :
    (respond m ch0 mc (OpenResult.ok status lines)).1 = [ch0 ++ [(m, "")]] := by
  rw [respond_ok_yields m ch0 mc status lines [] h]
  rfl

/-- Witness for C4 (amended) at the immediate-terminal-marker stream. -/
theorem empty_stream_blank_turn_witness :
    (respond "q" [] none (OpenResult.ok 200 ["data: [DONE]"])).1 = [[("q", "")]] :=
  empty_stream_blank_turn "q" [] none 200 ["data: [DONE]"] rfl

/-- C5: for a transcript of two fully-formed prior turns, the history payload
sent when submitting a new question is the flat list `[u1, a1, u2, a2]`; in
general the payload is determined by the prior turns alone, so it never
includes the newly submitted question or the current turn's empty assistant
placeholder (the appended current turn contributes nothing). -/
theorem history_payload_prior_turns (u1 a1 u2 a2 msg : String) (mc : Option String)
    (res : OpenResult) (h1 : u1 ≠ "") (h2 : a1 ≠ "") (h3 : u2 ≠ "") (h4 : a2 ≠ "") :
    (stream_chat msg ([(u1, a1), (u2, a2)] ++ [(msg, "")]) mc res).1.history
        = [u1, a1, u2, a2]
    ∧ ∀ (ch0 : List (String × String)) (q : String),
        (stream_chat q (ch0 ++ [(q, "")]) mc res).1.history = flattenPairs ch0 := by
  constructor
  · rw [stream_chat_payload]
    simp [buildPayload, historyFlat, flattenPairs, h1, h2, h3, h4]
  · intro ch0 q
    rw [stream_chat_payload]
    simp [buildPayload, historyFlat]

/-- Witness for C5 at a concrete two-turn transcript. -/
theorem history_payload_prior_turns_witness :
    (stream_chat "q3" ([("u1", "a1"), ("u2", "a2")] ++ [("q3", "")]) none
        (OpenResult.ok 200 [])).1.history = ["u1", "a1", "u2", "a2"] :=
  (history_payload_prior_turns "u1" "a1" "u2" "a2" "q3" none (OpenResult.ok 200 [])
    (by decide) (by decide) (by decide) (by decide)).1

/-- C6 counterexample: a frame carrying an OpenAI-style envelope
(`choices[0].delta.content` = `"Hi"`) is not accepted as such: the flat
`content` lookup misses, so the extracted fragment is `""`, not `"Hi"`. -/
theorem envelope_content_ignored_cex :
    tokensAsStrings (streamBody
        ["data: \x7b\"choices\":[\x7b\"delta\":\x7b\"content\":\"Hi\"\x7d\x7d]\x7d",
          "data: [DONE]"]).1 = [""]
    ∧ ("" : String) ≠ "Hi" :=
  ⟨rfl, by decide⟩

/-- C6 amended: for every data frame whose payload parses to a JSON object,
the extracted fragment is exactly the object's flat `content` field,
defaulting to the empty string when that field is missing; the nested
`choices[0].delta.content` convention is never consulted. -/
theorem content_flat_only (d : String) (fields : List (String × Json)) (rest : List String)
    (h1 : pyStrip d ≠ "[DONE]") (h2 : loads d = some (Json.obj fields)) :
    streamBody (("data: " ++ d) :: rest)
      = (((jsonLookup fields "content").getD (Json.str "")) :: (streamBody rest).1,
          (streamBody rest).2) :=
  streamBody_token d fields rest h1 h2

/-- Witness for C6 (amended) at the envelope frame: the fragment defaults
to the empty string. -/
theorem content_flat_only_witness :
    streamBody (("data: " ++ "\x7b\"choices\":[\x7b\"delta\":\x7b\"content\":\"Hi\"\x7d\x7d]\x7d")
        :: ["data: [DONE]"])
      = ([Json.str ""], none) :=
  (content_flat_only "\x7b\"choices\":[\x7b\"delta\":\x7b\"content\":\"Hi\"\x7d\x7d]\x7d"
      [("choices", Json.arr [Json.obj [("delta", Json.obj [("content", Json.str "Hi")])]])]
      ["data: [DONE]"] (by decide) rfl).trans (by rfl)

/-- C7 counterexample: a non-success HTTP status on the streaming endpoint is
never checked: with a 500 response whose body carries no data frame,
`stream_chat` yields nothing and raises nothing — no distinct failure is
propagated to the caller. -/
theorem bad_status_silent_cex :
    (stream_chat "q" [] none (OpenResult.ok 500 [])).2 = ([], none) := rfl

/-- C7 amended: a transport-level failure while opening the POST propagates
out of `stream_chat` as an exception before any token is yielded; the HTTP
status of an established response is never inspected, so its body is
processed exactly as a success would be. -/
theorem open_failure_propagation (q : String) (ch : List (String × String))
    (mc : Option String) :
    (stream_chat q ch mc OpenResult.transportError).2 = ([], some PyErr.connectError)
    ∧ ∀ (status : Nat) (lines : List String),
        (stream_chat q ch mc (OpenResult.ok status lines)).2 = streamBody lines :=
  ⟨rfl, fun _ _ => rfl⟩

/-- C8: whenever the model-directory fetch fails on the network, returns a
non-success status, or returns a body that is not valid JSON, `get_models`
returns an empty choice list, no default and an empty grouping, without
raising to the caller. -/
theorem get_models_failure_empty (outcome : HttpGetOutcome)
    (h : outcome = HttpGetOutcome.netError
      ∨ (∃ s b, outcome = HttpGetOutcome.response s b ∧ (s < 200 ∨ 300 ≤ s))
      ∨ (∃ s b, outcome = HttpGetOutcome.response s b ∧ loads b = none)) :
    get_models outcome = Except.ok ([], none, []) := by
  rcases h with rfl | ⟨s, b, rfl, hs⟩ | ⟨s, b, rfl, hb⟩
  · rfl
  · have hc : ¬(200 ≤ s ∧ s ≤ 299) := by omega
    simp only [get_models, if_neg hc]
  · by_cases hc : 200 ≤ s ∧ s ≤ 299
    · simp only [get_models, if_pos hc, hb]
    · simp only [get_models, if_neg hc]

/-- Witness for C8 at an unreachable backend. -/
theorem get_models_failure_empty_witness :
    get_models HttpGetOutcome.netError = Except.ok ([], none, []) :=
  get_models_failure_empty HttpGetOutcome.netError (Or.inl rfl)

/-- C9 counterexample: the choice `"openai:"` is a non-empty selection, yet
the request body omits the `model` key, because the stripped model name is
empty and `if model:` is false — refuting the claimed "iff non-empty
choice". -/
theorem model_key_cex :
    (stream_chat "q" [] (some "openai:") (OpenResult.ok 200 [])).1.model = none
    ∧ ("openai:" : String) ≠ "" :=
  ⟨rfl, by decide⟩

/-- C9 amended: the body always carries `question` and `history`; the `model`
key is present iff the selection strips (via `_label_to_model`) to a
non-empty model name, and it is never present holding an empty value. -/
theorem payload_model_key (q : String) (ch : List (String × String)) (mc : Option String)
    (res : OpenResult) :
    (stream_chat q ch mc res).1.question = q
    ∧ (stream_chat q ch mc res).1.history = historyFlat ch
    ∧ ((stream_chat q ch mc res).1.model ≠ none ↔
        ∃ m, label_to_model mc = some m ∧ m ≠ "")
    ∧ (stream_chat q ch mc res).1.model ≠ some "" := by
  simp only [stream_chat_payload]
  refine ⟨rfl, rfl, ?_, ?_⟩
  · cases hlm : label_to_model mc with
    | none => simp [buildPayload, hlm]
    | some m => by_cases hm : m = "" <;> simp [buildPayload, hlm, hm]
  · cases hlm : label_to_model mc with
    | none => simp [buildPayload, hlm]
    | some m => by_cases hm : m = "" <;> simp [buildPayload, hlm, hm]

/-- C10: every transcript yielded by `respond` has one more turn than the
input transcript, starts with the input turns unchanged, and ends with a turn
whose user message is the submitted message. -/
theorem respond_transcript_shape (m : String) (ch0 : List (String × String))
    (mc : Option String) (res : OpenResult) (t : List (String × String))
    (ht : t ∈ (respond m ch0 mc res).1) :
    t.length = ch0.length + 1 ∧ t.take ch0.length = ch0
      ∧ ∃ a, t.getLast? = some (m, a) := by
  have hsh : ∃ a, t = ch0 ++ [(m, a)] := by
    have hy : (respond m ch0 mc res).1
        = (ch0 ++ [(m, "")])
          :: (respondLoop m ch0 "" (stream_chat m (ch0 ++ [(m, "")]) mc res).2.1).1 := rfl
    rw [hy, List.mem_cons] at ht
    rcases ht with rfl | ht
    · exact ⟨"", rfl⟩
    · exact respondLoop_shape m ch0 _ "" t ht
  rcases hsh with ⟨a, rfl⟩
  refine ⟨by simp, by simp, ⟨a, by simp⟩⟩

/-- Witness for C10 at a one-yield run of `respond`. -/
theorem respond_transcript_shape_witness :
    ([("q", "")] : List (String × String)).length
        = ([] : List (String × String)).length + 1
    ∧ ([("q", "")] : List (String × String)).take ([] : List (String × String)).length = []
    ∧ ∃ a, ([("q", "")] : List (String × String)).getLast? = some ("q", a) :=
  respond_transcript_shape "q" [] none (OpenResult.ok 200 ["data: [DONE]"]) [("q", "")]
    (by decide)

end RagUi
